import Mathlib

/-!
Verification of the Memory-MCP storage engine (`BaseDatabaseService` /
`DatabaseService` in `src/modules/database`) and its provider adapters.

Shallow embedding conventions:
* JavaScript numbers are modelled as exact rationals (`ℚ`) or integers (`ℤ`);
  floating-point rounding is outside the model.
* A pgvector cosine-similarity value `1 - (e <=> q)` is an irrational real in
  general, so it is represented exactly by its image under the strictly
  monotone map `x ↦ x * |x|` (the "signed square"): for vectors with dot
  product `d` and squared-norm product `p > 0` the similarity `d / √p` is
  encoded as `d * |d| / p : ℚ`.  The encoding fixes `-1`, `0` and `1` and
  preserves order and all threshold comparisons (see `signedSq_le_signedSq`
  and `signedSq_div_encodes_cosine` below).  A zero-norm vector makes the
  cosine undefined (`NaN` at runtime); PostgreSQL orders `NaN` above every
  other float, so that case is encoded as `⊤ : WithTop ℚ`.
* JS truthiness of optional arguments (`x || d`, `if (x)`) is modelled
  explicitly: `0`, `""` and `undefined` are falsy.
-/

set_option maxRecDepth 8000

/-- JS `v || d` for an optional number: `undefined` and `0` are falsy. -/
def jsOrQ (v : Option ℚ) (d : ℚ) : ℚ :=
  match v with
  | none => d
  | some x => if x = 0 then d else x

/-- JS `v || d` for an optional integer-valued number. -/
def jsOrZ (v : Option ℤ) (d : ℤ) : ℤ :=
  match v with
  | none => d
  | some x => if x = 0 then d else x

/-- JS truthiness guard `if (v)` for an optional integer: `some 0` acts like `none`. -/
def jsTruthyZ (v : Option ℤ) : Option ℤ :=
  match v with
  | none => none
  | some x => if x = 0 then none else some x

/-- JS truthiness guard for an optional string: the empty string is falsy. -/
def jsTruthyStr (v : Option String) : Option String :=
  match v with
  | none => none
  | some s => if s = "" then none else some s

/-- The two embedding providers (`EmbeddingProviderType` in `embedding.types.ts`). -/
inductive EmbeddingProviderType where
  | openai
  | ollama
deriving DecidableEq, Repr

/-- Vector column width fixed per provider table in `INITIALIZATION_SQL`:
`VECTOR(1536)` for `memory_embeddings_openai`, `VECTOR(768)` for
`memory_embeddings_ollama`. -/
def providerDim : EmbeddingProviderType → Nat
  | .openai => 1536
  | .ollama => 768

/-- A row of the `memories` table (snake_case as in `MemoryRow` of
`database.types.ts`; timestamps abstracted to integers). -/
structure MemoryRow where
  id : Nat
  content : String
  context : Option String
  tags : List String
  created_at : ℤ
  updated_at : ℤ
  importance_score : ℤ
deriving DecidableEq, Repr

/-- A row of a `memory_embeddings_<provider>` table. -/
structure EmbeddingRow where
  memory_id : Nat
  embedding : List ℚ
  model : String
  created_at : ℤ
deriving DecidableEq, Repr

/-- The relational state owned by the storage engine: the `memories` table,
the two provider tables, and the `SERIAL` id counter. -/
structure DB where
  memories : List MemoryRow
  openaiEmbeddings : List EmbeddingRow
  ollamaEmbeddings : List EmbeddingRow
  nextId : Nat
deriving DecidableEq, Repr

/-- The provider table named `memory_embeddings_${provider}`. -/
def embTable (db : DB) : EmbeddingProviderType → List EmbeddingRow
  | .openai => db.openaiEmbeddings
  | .ollama => db.ollamaEmbeddings

/-- Replace the provider table named `memory_embeddings_${provider}`. -/
def setEmbTable (db : DB) (p : EmbeddingProviderType) (l : List EmbeddingRow) : DB :=
  match p with
  | .openai => { db with openaiEmbeddings := l }
  | .ollama => { db with ollamaEmbeddings := l }

/-- The `Memory` result object (camelCase, no embedding data). -/
structure Memory where
  id : Nat
  content : String
  context : Option String
  tags : List String
  createdAt : ℤ
  updatedAt : ℤ
  importanceScore : ℤ
deriving DecidableEq, Repr

/-- The `MemoryWithEmbedding` result object. -/
structure MemoryWithEmbedding where
  id : Nat
  content : String
  context : Option String
  tags : List String
  createdAt : ℤ
  updatedAt : ℤ
  importanceScore : ℤ
  embedding : List ℚ
  embeddingModel : String
  embeddingProvider : EmbeddingProviderType
deriving DecidableEq, Repr

/-- Row-to-result mapping used by `listMemories` and `getMemoryById`. -/
def rowToMemory (m : MemoryRow) : Memory :=
  { id := m.id, content := m.content, context := m.context, tags := m.tags,
    createdAt := m.created_at, updatedAt := m.updated_at,
    importanceScore := m.importance_score }

/-- Row-to-result mapping for queries that join a provider table. -/
def rowToMemoryWithEmbedding (m : MemoryRow) (e : EmbeddingRow)
    (p : EmbeddingProviderType) : MemoryWithEmbedding :=
  { id := m.id, content := m.content, context := m.context, tags := m.tags,
    createdAt := m.created_at, updatedAt := m.updated_at,
    importanceScore := m.importance_score,
    embedding := e.embedding, embeddingModel := e.model, embeddingProvider := p }

/-- Dot product of two vectors (pgvector truncates nothing at runtime because
column widths are fixed; `zipWith` truncation is never exercised on
well-formed states). -/
def dot (a b : List ℚ) : ℚ := (List.zipWith (· * ·) a b).sum

/-- Squared Euclidean norm. -/
def normSq (a : List ℚ) : ℚ := dot a a

/-- The strictly monotone signed-square encoding `x ↦ x * |x|` used to
represent cosine-similarity values exactly in `ℚ`. -/
def signedSq (x : ℚ) : ℚ := x * |x|

/-- Exact encoding of the similarity score `1 - (e <=> q)` computed by the
`SEARCH_RESULT_COLUMNS` select list: the cosine `dot e q / √(|e|²·|q|²)`
encoded through `signedSq`, or `⊤` for the `NaN` produced when either vector
has zero norm (PostgreSQL orders `NaN` above all other floats). -/
def simScoreKey (e q : List ℚ) : WithTop ℚ :=
  let p := normSq e * normSq q
  if p = 0 then ⊤ else ((signedSq (dot e q) / p : ℚ) : WithTop ℚ)

/-- The `WHERE 1 - (e.embedding <=> $1::vector) >= $2` predicate of
`searchMemories`, under the signed-square encoding. -/
def simGE (e q : List ℚ) (t : ℚ) : Bool :=
  decide (((signedSq t : ℚ) : WithTop ℚ) ≤ simScoreKey e q)

/-- SQL array overlap `a && b`: the arrays share at least one element. -/
def tagOverlap (a b : List String) : Bool :=
  a.any (fun t => b.contains t)

/-- `CreateMemoryInput` (`database.types.ts`): arguments of the store tool. -/
structure CreateMemoryInput where
  content : String
  context : Option String
  tags : Option (List String)
  importanceScore : Option ℤ
deriving DecidableEq, Repr

/-- `SearchMemoryInput` (`database.types.ts`). -/
structure SearchMemoryInput where
  query : String
  limit : Option ℤ
  similarityThreshold : Option ℚ
  tags : Option (List String)
  embeddingProvider : Option EmbeddingProviderType
  embeddingModel : Option String
deriving DecidableEq, Repr

/-- `ListMemoriesInput` (`database.types.ts`); the ISO date strings are
abstracted to integer timestamps, ordered as their parses are. -/
structure ListMemoriesInput where
  limit : Option ℤ
  offset : Option ℤ
  tags : Option (List String)
  minImportance : Option ℤ
  startDate : Option ℤ
  endDate : Option ℤ
  embeddingProvider : Option EmbeddingProviderType
deriving DecidableEq, Repr

/-- A database connection that may hold an open transaction: `txn` is the
uncommitted working state between `BEGIN` and `COMMIT`/`ROLLBACK`. -/
structure Session where
  committed : DB
  txn : Option DB
deriving DecidableEq, Repr

/-- Semantics of `client.query('BEGIN')`. -/
def Session.beginTxn (s : Session) : Session :=
  { s with txn := some s.committed }

/-- Semantics of `client.query('COMMIT')`. -/
def Session.commitTxn (s : Session) : Session :=
  { committed := s.txn.getD s.committed, txn := none }

/-- Semantics of `client.query('ROLLBACK')`: the working state is discarded. -/
def Session.rollbackTxn (s : Session) : Session :=
  { s with txn := none }

/-- The state a statement executes against: the open transaction if any,
otherwise the committed state. -/
def Session.active (s : Session) : DB :=
  s.txn.getD s.committed

/-- Install the state produced by a statement. -/
def Session.setActive (s : Session) (db : DB) : Session :=
  match s.txn with
  | some _ => { s with txn := some db }
  | none => { s with committed := db }

/-- Semantics of `INSERT INTO memories (content, context, tags,
importance_score) VALUES (...) RETURNING ...`.  The insert fails (`none`)
when the `CHECK (importance_score >= 1 AND importance_score <= 5)` constraint
of `INITIALIZATION_SQL` is violated. -/
def insertMemoryRow (db : DB) (content : String) (context : Option String)
    (tags : List String) (imp : ℤ) (now : ℤ) : Option (DB × MemoryRow) :=
  if 1 ≤ imp ∧ imp ≤ 5 then
    let row : MemoryRow :=
      { id := db.nextId, content := content, context := context, tags := tags,
        created_at := now, updated_at := now, importance_score := imp }
    some ({ db with memories := db.memories ++ [row], nextId := db.nextId + 1 }, row)
  else none

/-- Semantics of `INSERT INTO memory_embeddings_${provider} (memory_id,
embedding, model) VALUES (...)`.  The insert fails when the vector does not
fit the fixed-width `VECTOR(n)` column or the `memory_id` primary key is
already present. -/
def insertEmbeddingRow (db : DB) (p : EmbeddingProviderType) (memId : Nat)
    (emb : List ℚ) (model : String) (now : ℤ) : Option DB :=
  if emb.length = providerDim p ∧ (embTable db p).all (fun e => e.memory_id ≠ memId) then
    some (setEmbTable db p (embTable db p ++
      [{ memory_id := memId, embedding := emb, model := model, created_at := now }]))
  else none

/-- `BaseDatabaseService.storeMemory`: `BEGIN`; insert into `memories` with
the falsy-defaulted values `input.context || null`, `input.tags || []`,
`input.importanceScore || 1`; insert into the provider table named after
`embeddingProvider`; `COMMIT` and return the materialized
`MemoryWithEmbedding`; on any failure `ROLLBACK` and rethrow (`none`). -/
def storeMemory (s : Session) (input : CreateMemoryInput) (embedding : List ℚ)
    (embeddingModel : String) (embeddingProvider : EmbeddingProviderType)
    (now : ℤ) : Session × Option MemoryWithEmbedding :=
  let s1 := s.beginTxn
  match insertMemoryRow s1.active input.content (jsTruthyStr input.context)
      (input.tags.getD []) (jsOrZ input.importanceScore 1) now with
  | none => (s1.rollbackTxn, none)
  | some (db1, memoryRow) =>
    let s2 := s1.setActive db1
    match insertEmbeddingRow s2.active embeddingProvider memoryRow.id embedding
        embeddingModel now with
    | none => (s2.rollbackTxn, none)
    | some db2 =>
      let s3 := (s2.setActive db2).commitTxn
      (s3, some
        { id := memoryRow.id, content := memoryRow.content,
          context := memoryRow.context, tags := memoryRow.tags,
          createdAt := memoryRow.created_at, updatedAt := memoryRow.updated_at,
          importanceScore := memoryRow.importance_score,
          embedding := embedding, embeddingModel := embeddingModel,
          embeddingProvider := embeddingProvider })

/-- The inner join `memories m JOIN memory_embeddings_<p> e ON m.id =
e.memory_id`. -/
def joinRows (db : DB) (p : EmbeddingProviderType) : List (MemoryRow × EmbeddingRow) :=
  db.memories.flatMap fun m =>
    ((embTable db p).filter (fun e => e.memory_id = m.id)).map (fun e => (m, e))

/-- A joined row together with its computed `similarity_score`. -/
structure ScoredRow where
  mem : MemoryRow
  emb : EmbeddingRow
  score : WithTop ℚ
deriving DecidableEq, Repr

/-- `ORDER BY similarity_score DESC, m.importance_score DESC`: row `x` may
come before row `y`. -/
def scoredBefore (x y : ScoredRow) : Prop :=
  y.score < x.score ∨ (x.score = y.score ∧ y.mem.importance_score ≤ x.mem.importance_score)

instance : DecidableRel scoredBefore := fun x y => by
  unfold scoredBefore; infer_instance

instance : IsTotal ScoredRow scoredBefore := by
  constructor
  intro a b
  unfold scoredBefore
  rcases lt_trichotomy a.score b.score with h | h | h
  · exact Or.inr (Or.inl h)
  · rcases le_total a.mem.importance_score b.mem.importance_score with h2 | h2
    · exact Or.inr (Or.inr ⟨h.symm, h2⟩)
    · exact Or.inl (Or.inr ⟨h, h2⟩)
  · exact Or.inl (Or.inl h)

instance : IsTrans ScoredRow scoredBefore := by
  constructor
  intro a b c hab hbc
  unfold scoredBefore at *
  rcases hab with hab | ⟨hab1, hab2⟩
  · rcases hbc with hbc | ⟨hbc1, hbc2⟩
    · exact Or.inl (hbc.trans hab)
    · exact Or.inl (hbc1 ▸ hab)
  · rcases hbc with hbc | ⟨hbc1, hbc2⟩
    · exact Or.inl (hab1 ▸ hbc)
    · exact Or.inr ⟨hab1.trans hbc1, hbc2.trans hab2⟩

/-- A search result row shaped as `{ memory, similarityScore }`; the score
carries the signed-square encoding of `parseFloat(row.similarity_score)`. -/
structure SearchResult where
  memory : MemoryWithEmbedding
  similarityScore : WithTop ℚ
deriving DecidableEq, Repr

/-- The SQL text assembled by `searchMemories`, abstracted to its clause
structure: mandatory similarity filter, optional `AND e.model = $i`,
optional `AND m.tags && $i`, and the trailing `LIMIT`. -/
structure SearchQuery where
  provider : EmbeddingProviderType
  threshold : ℚ
  modelFilter : Option String
  tagsFilter : Option (List String)
  limit : ℤ
deriving DecidableEq, Repr

/-- Mirrors the query construction in `BaseDatabaseService.searchMemories`:
`searchProvider = input.embeddingProvider || embeddingProvider`, threshold
parameter `input.similarityThreshold || 0.7`, a model clause only under
`if (input.embeddingModel)`, a tags clause only under
`if (input.tags && input.tags.length > 0)`, and `LIMIT input.limit || 10`. -/
def buildSearchQuery (input : SearchMemoryInput)
    (embeddingProvider : EmbeddingProviderType) : SearchQuery :=
  { provider := input.embeddingProvider.getD embeddingProvider
    threshold := jsOrQ input.similarityThreshold (7/10)
    modelFilter := jsTruthyStr input.embeddingModel
    tagsFilter :=
      match input.tags with
      | some ts => if 0 < ts.length then some ts else none
      | none => none
    limit := jsOrZ input.limit 10 }

/-- The `WHERE` predicate of the assembled search query on a scored row. -/
def searchRowKeep (q : SearchQuery) (qEmb : List ℚ) (r : ScoredRow) : Bool :=
  simGE r.emb.embedding qEmb q.threshold &&
    (match q.modelFilter with
     | some mdl => r.emb.model = mdl
     | none => true) &&
    (match q.tagsFilter with
     | some ts => tagOverlap r.mem.tags ts
     | none => true)

/-- Relational semantics of the assembled search query: join, score, filter,
sort by `similarity_score DESC, importance_score DESC`, truncate to `LIMIT`.
The whole statement errors (`none`) when the parameter vector cannot be
compared against the fixed-width column (`<=>` dimension mismatch) or the
`LIMIT` parameter is negative. -/
def runSearchQuery (db : DB) (q : SearchQuery) (qEmb : List ℚ) :
    Option (List SearchResult) :=
  if (embTable db q.provider).all (fun e => e.embedding.length = qEmb.length) ∧
      0 ≤ q.limit then
    let scored := (joinRows db q.provider).map
      (fun me => ScoredRow.mk me.1 me.2 (simScoreKey me.2.embedding qEmb))
    let kept := scored.filter (searchRowKeep q qEmb)
    let sorted := List.insertionSort scoredBefore kept
    some ((sorted.take q.limit.toNat).map
      (fun r => SearchResult.mk
        (rowToMemoryWithEmbedding r.mem r.emb q.provider) r.score))
  else none

/-- `BaseDatabaseService.searchMemories`. -/
def searchMemories (db : DB) (input : SearchMemoryInput) (queryEmbedding : List ℚ)
    (embeddingProvider : EmbeddingProviderType) : Option (List SearchResult) :=
  runSearchQuery db (buildSearchQuery input embeddingProvider) queryEmbedding

/-- The SQL text assembled by `listMemories`, abstracted to its clause
structure; every field is `none` when the corresponding `if (input.x)` guard
skipped the clause. -/
structure ListQuery where
  tagsFilter : Option (List String)
  minImportance : Option ℤ
  startDate : Option ℤ
  endDate : Option ℤ
  provider : Option EmbeddingProviderType
  limit : Option ℤ
  offset : Option ℤ
deriving DecidableEq, Repr

/-- Mirrors the query construction in `BaseDatabaseService.listMemories`:
each clause is appended only when its guard (`input.tags &&
input.tags.length > 0`, `if (input.minImportance)`, `if (input.startDate)`,
`if (input.endDate)`, `if (input.embeddingProvider)`, `if (input.limit)`,
`if (input.offset)`) is truthy. -/
def buildListQuery (input : ListMemoriesInput) : ListQuery :=
  { tagsFilter :=
      match input.tags with
      | some ts => if 0 < ts.length then some ts else none
      | none => none
    minImportance := jsTruthyZ input.minImportance
    startDate := input.startDate
    endDate := input.endDate
    provider := input.embeddingProvider
    limit := jsTruthyZ input.limit
    offset := jsTruthyZ input.offset }

/-- The conjunction of `WHERE` clauses of the assembled list query. -/
def listRowKeep (db : DB) (q : ListQuery) (m : MemoryRow) : Bool :=
  (match q.tagsFilter with
   | some ts => tagOverlap m.tags ts
   | none => true) &&
  (match q.minImportance with
   | some b => b ≤ m.importance_score
   | none => true) &&
  (match q.startDate with
   | some d => d ≤ m.created_at
   | none => true) &&
  (match q.endDate with
   | some d => m.created_at ≤ d
   | none => true) &&
  (match q.provider with
   | some p => (embTable db p).any (fun e => e.memory_id = m.id)
   | none => true)

/-- `ORDER BY created_at DESC`: row `x` may come before row `y`. -/
def createdBefore (x y : MemoryRow) : Prop :=
  y.created_at ≤ x.created_at

instance : DecidableRel createdBefore := fun x y => by
  unfold createdBefore; infer_instance

instance : IsTotal MemoryRow createdBefore :=
  ⟨fun a b => le_total b.created_at a.created_at⟩

instance : IsTrans MemoryRow createdBefore :=
  ⟨fun _ _ _ hab hbc => le_trans hbc hab⟩

/-- Relational semantics of the assembled list query: filter, sort by
`created_at DESC`, then apply `OFFSET` and `LIMIT` when present (SQL applies
the offset before the limit regardless of clause order).  A negative `LIMIT`
or `OFFSET` parameter makes the statement error (`none`). -/
def runListQuery (db : DB) (q : ListQuery) : Option (List Memory) :=
  if (match q.limit with | some l => decide (0 ≤ l) | none => true) &&
      (match q.offset with | some o => decide (0 ≤ o) | none => true) then
    let sorted := List.insertionSort createdBefore
      (db.memories.filter (listRowKeep db q))
    let afterOffset :=
      match q.offset with
      | some o => sorted.drop o.toNat
      | none => sorted
    let afterLimit :=
      match q.limit with
      | some l => afterOffset.take l.toNat
      | none => afterOffset
    some (afterLimit.map rowToMemory)
  else none

/-- `BaseDatabaseService.listMemories`. -/
def listMemories (db : DB) (input : ListMemoriesInput) : Option (List Memory) :=
  runListQuery db (buildListQuery input)

/-- `BaseDatabaseService.getMemoryById`: `SELECT ... FROM memories WHERE
id = $1`, `null` when no row matches. -/
def getMemoryById (db : DB) (id : Nat) : Option Memory :=
  (db.memories.filter (fun m => m.id = id)).head?.map rowToMemory

/-- `BaseDatabaseService.getMemoryWithEmbeddingById`: join with the provider
table named after `embeddingProvider`, `WHERE m.id = $1`, `null` when the
join produces no row. -/
def getMemoryWithEmbeddingById (db : DB) (id : Nat)
    (embeddingProvider : EmbeddingProviderType) : Option MemoryWithEmbedding :=
  ((joinRows db embeddingProvider).filter (fun me => me.1.id = id)).head?.map
    (fun me => rowToMemoryWithEmbedding me.1 me.2 embeddingProvider)

/-- `BaseDatabaseService.deleteMemory`: the single statement `DELETE FROM
memories WHERE id = $1`.  The `ON DELETE CASCADE` constraints of
`INITIALIZATION_SQL` remove the embedding rows of each deleted memory as part
of this one statement; the service issues no further query.  Returns the
state and `affectedRows > 0`. -/
def deleteMemory (db : DB) (id : Nat) : DB × Bool :=
  let deleted := db.memories.filter (fun m => m.id = id)
  let deletedIds := deleted.map (fun m => m.id)
  let db' : DB :=
    { db with
      memories := db.memories.filter (fun m => ¬ m.id = id)
      openaiEmbeddings :=
        db.openaiEmbeddings.filter (fun e => ¬ deletedIds.contains e.memory_id)
      ollamaEmbeddings :=
        db.ollamaEmbeddings.filter (fun e => ¬ deletedIds.contains e.memory_id) }
  (db', 0 < deleted.length)

/-- `OllamaEmbeddingProvider.generateEmbedding`: one call to the remote
`/api/embeddings` endpoint, modelled by the oracle `svc`; `none` models a
thrown error (failed call or response missing the `embedding` array). -/
def OllamaEmbeddingProvider.generateEmbedding (svc : String → Option (List ℚ))
    (text : String) : Option (List ℚ) :=
  svc text

/-- `OllamaEmbeddingProvider.generateEmbeddings`: the sequential `for` loop
that awaits `generateEmbedding` per text and pushes each result, aborting at
the first failure. -/
def OllamaEmbeddingProvider.generateEmbeddings (svc : String → Option (List ℚ)) :
    List String → Option (List (List ℚ))
  | [] => some []
  | t :: ts =>
    match OllamaEmbeddingProvider.generateEmbedding svc t with
    | none => none
    | some e =>
      match OllamaEmbeddingProvider.generateEmbeddings svc ts with
      | none => none
      | some es => some (e :: es)

/-- `OpenAIEmbeddingProvider.generateEmbedding`: calls the embeddings
endpoint with a single input and takes `response.data[0].embedding`.  The
endpoint is the oracle `api` mapping a batch of inputs to the `data` array of
the response (`none` models a thrown error). -/
def OpenAIEmbeddingProvider.generateEmbedding
    (api : List String → Option (List (List ℚ))) (text : String) :
    Option (List ℚ) :=
  match api [text] with
  | some (e :: _) => some e
  | some [] => none
  | none => none

/-- `OpenAIEmbeddingProvider.generateEmbeddings`: one native batch call,
mapping `response.data` to its embeddings (in response order). -/
def OpenAIEmbeddingProvider.generateEmbeddings
    (api : List String → Option (List (List ℚ))) (texts : List String) :
    Option (List (List ℚ)) :=
  api texts

/-- `isValidStoreMemoryArgs` (`server.validation.ts`): the only check not
absorbed by the field types of `CreateMemoryInput` is
`isOptionalNumberInRange(input.importanceScore, 1, 5)`. -/
def isValidStoreMemoryArgs (args : CreateMemoryInput) : Bool :=
  match args.importanceScore with
  | some s => decide (1 ≤ s ∧ s ≤ 5)
  | none => true

/-- `isValidSearchMemoriesArgs` (`server.validation.ts`): every check
(`isString`, `isOptionalNumber`, `isOptionalStringArray`,
`isOptionalEnumValue`, `isOptionalString`) is a pure type-shape check,
absorbed by the field types of `SearchMemoryInput`.  In particular
`similarityThreshold` and `limit` are only checked to be numbers — no range
bound is imposed. -/
def isValidSearchMemoriesArgs (_args : SearchMemoryInput) : Bool := true

/-- `isValidListMemoriesArgs` (`server.validation.ts`): likewise all
type-shape checks, absorbed by the field types of `ListMemoriesInput`. -/
def isValidListMemoriesArgs (_args : ListMemoriesInput) : Bool := true

/-- The other provider, for cross-provider lookups. -/
def otherProvider : EmbeddingProviderType → EmbeddingProviderType
  | .openai => .ollama
  | .ollama => .openai

/-- Claim C3 as stated: `searchMemories` resolving defaults by presence
(`Option.getD`) rather than JS truthiness — threshold `0.7` only when the
input leaves it unspecified, limit `10` only when unspecified, the model and
tag filters applied whenever the field is given. -/
def searchMemoriesClaimed (db : DB) (input : SearchMemoryInput)
    (queryEmbedding : List ℚ) (embeddingProvider : EmbeddingProviderType) :
    Option (List SearchResult) :=
  let p := input.embeddingProvider.getD embeddingProvider
  let t := input.similarityThreshold.getD (7/10)
  let n := input.limit.getD 10
  if (embTable db p).all (fun e => e.embedding.length = queryEmbedding.length) ∧
      0 ≤ n then
    let scored := (joinRows db p).map
      (fun me => ScoredRow.mk me.1 me.2 (simScoreKey me.2.embedding queryEmbedding))
    let kept := scored.filter (fun r =>
      simGE r.emb.embedding queryEmbedding t &&
      (match input.embeddingModel with
       | some mdl => r.emb.model = mdl
       | none => true) &&
      (match input.tags with
       | some ts => tagOverlap r.mem.tags ts
       | none => true))
    let sorted := List.insertionSort scoredBefore kept
    some ((sorted.take n.toNat).map
      (fun r => SearchResult.mk (rowToMemoryWithEmbedding r.mem r.emb p) r.score))
  else none

/-- Claim C3 amended to the JS-truthiness semantics of the code: threshold
`0.7` when unspecified or `0`, limit `10` when unspecified or `0`, model
filter only for a non-empty model string, tag filter only for a non-empty tag
array.  Stated as a pipeline of independent filters. -/
def searchMemoriesSpec (db : DB) (input : SearchMemoryInput)
    (queryEmbedding : List ℚ) (embeddingProvider : EmbeddingProviderType) :
    Option (List SearchResult) :=
  let p := input.embeddingProvider.getD embeddingProvider
  let t := jsOrQ input.similarityThreshold (7/10)
  let n := jsOrZ input.limit 10
  if (embTable db p).all (fun e => e.embedding.length = queryEmbedding.length) ∧
      0 ≤ n then
    let scored := (joinRows db p).map
      (fun me => ScoredRow.mk me.1 me.2 (simScoreKey me.2.embedding queryEmbedding))
    let aboveThreshold := scored.filter
      (fun r => simGE r.emb.embedding queryEmbedding t)
    let modelMatched := aboveThreshold.filter (fun r =>
      match jsTruthyStr input.embeddingModel with
      | some mdl => r.emb.model = mdl
      | none => true)
    let tagMatched := modelMatched.filter (fun r =>
      match input.tags with
      | some ts => if 0 < ts.length then tagOverlap r.mem.tags ts else true
      | none => true)
    let sorted := List.insertionSort scoredBefore tagMatched
    some ((sorted.take n.toNat).map
      (fun r => SearchResult.mk (rowToMemoryWithEmbedding r.mem r.emb p) r.score))
  else none

/-- Claim C8 as stated: every supplied `listMemories` filter interpreted
directly — tag overlap whenever a tag array is supplied, minimum importance
whenever supplied, inclusive date bounds, provider existence check. -/
def listClaimKeep (db : DB) (input : ListMemoriesInput) (m : MemoryRow) : Bool :=
  (match input.tags with
   | some ts => tagOverlap m.tags ts
   | none => true) &&
  (match input.minImportance with
   | some b => b ≤ m.importance_score
   | none => true) &&
  (match input.startDate with
   | some d => d ≤ m.created_at
   | none => true) &&
  (match input.endDate with
   | some d => m.created_at ≤ d
   | none => true) &&
  (match input.embeddingProvider with
   | some p => (embTable db p).any (fun e => e.memory_id = m.id)
   | none => true)

/-- Claim C8 amended: as `listClaimKeep`, except that an empty supplied tag
array is skipped by the code's `input.tags.length > 0` guard and therefore
filters nothing. -/
def listClaimKeepAmended (db : DB) (input : ListMemoriesInput) (m : MemoryRow) : Bool :=
  (match input.tags with
   | some ts => if 0 < ts.length then tagOverlap m.tags ts else true
   | none => true) &&
  (match input.minImportance with
   | some b => b ≤ m.importance_score
   | none => true) &&
  (match input.startDate with
   | some d => d ≤ m.created_at
   | none => true) &&
  (match input.endDate with
   | some d => m.created_at ≤ d
   | none => true) &&
  (match input.embeddingProvider with
   | some p => (embTable db p).any (fun e => e.memory_id = m.id)
   | none => true)

/-- First standard basis vector of the 768-dimensional Ollama table. -/
def unitVecA : List ℚ := 1 :: List.replicate 767 0

/-- Second standard basis vector (orthogonal to `unitVecA`). -/
def unitVecB : List ℚ := 0 :: 1 :: List.replicate 766 0

/-- Negation of `unitVecA`. -/
def negUnitVecA : List ℚ := (-1) :: List.replicate 767 0

/-- A concrete `memories` row. -/
def exampleMemoryRow : MemoryRow :=
  { id := 1, content := "Use 2-space indent", context := none,
    tags := ["style"], created_at := 0, updated_at := 0, importance_score := 3 }

/-- A concrete `memory_embeddings_ollama` row holding `unitVecA`. -/
def exampleEmbeddingRow : EmbeddingRow :=
  { memory_id := 1, embedding := unitVecA, model := "nomic-embed-text",
    created_at := 0 }

/-- A concrete reachable state: one memory embedded under the Ollama
provider. -/
def exampleDB : DB :=
  { memories := [exampleMemoryRow], openaiEmbeddings := [],
    ollamaEmbeddings := [exampleEmbeddingRow], nextId := 2 }

/-- A search input that supplies `similarityThreshold = 0` explicitly and
leaves everything else unspecified. -/
def zeroThresholdInput : SearchMemoryInput :=
  { query := "indent", limit := none, similarityThreshold := some 0,
    tags := none, embeddingProvider := none, embeddingModel := none }

/-- A search input with a negative (validator-accepted) threshold. -/
def negThresholdInput : SearchMemoryInput :=
  { query := "indent", limit := none, similarityThreshold := some (-1),
    tags := none, embeddingProvider := none, embeddingModel := none }

/-- A list input supplying an empty tag array. -/
def emptyTagsListInput : ListMemoriesInput :=
  { limit := none, offset := none, tags := some [], minImportance := none,
    startDate := none, endDate := none, embeddingProvider := none }

theorem dot_nil_left (b : List ℚ) : dot [] b = 0 := rfl

theorem dot_nil_right (a : List ℚ) : dot a [] = 0 := by
  cases a <;> rfl

theorem dot_cons_cons (x y : ℚ) (a b : List ℚ) :
    dot (x :: a) (y :: b) = x * y + dot a b := by
  simp [dot]

theorem dot_replicate_zero_left (n : ℕ) (b : List ℚ) :
    dot (List.replicate n 0) b = 0 := by
  induction n generalizing b with
  | zero => rfl
  | succ n ih =>
    cases b with
    | nil => rfl
    | cons y ys => rw [List.replicate_succ, dot_cons_cons, ih]; ring

theorem normSq_nonneg (a : List ℚ) : 0 ≤ normSq a := by
  induction a with
  | nil => simp [normSq, dot_nil_left]
  | cons x xs ih =>
    rw [normSq] at ih
    rw [normSq, dot_cons_cons]
    nlinarith [mul_self_nonneg x]

/-- Cauchy–Schwarz for the list dot product, over `ℚ`. -/
theorem dot_sq_le_normSq_mul (a b : List ℚ) :
    dot a b ^ 2 ≤ normSq a * normSq b := by
  induction a generalizing b with
  | nil => simp [dot_nil_left, normSq]
  | cons x xs ih =>
    cases b with
    | nil => simp [dot_nil_right, normSq, dot_nil_left]
    | cons y ys =>
      have hx := normSq_nonneg xs
      have hy := normSq_nonneg ys
      have h := ih ys
      rw [dot_cons_cons, normSq, normSq, dot_cons_cons, dot_cons_cons]
      show (x * y + dot xs ys) ^ 2 ≤ (x * x + normSq xs) * (y * y + normSq ys)
      rcases eq_or_lt_of_le hy with hy0 | hy0
      · have hd2 : dot xs ys ^ 2 = 0 := le_antisymm (by nlinarith) (sq_nonneg _)
        have hd : dot xs ys = 0 := by
          have h2 : (2 : ℕ) ≠ 0 := by norm_num
          exact (pow_eq_zero_iff h2).mp hd2
        rw [hd, ← hy0]
        nlinarith [mul_nonneg hx (mul_self_nonneg y)]
      · nlinarith [sq_nonneg (x * normSq ys - y * dot xs ys),
          mul_nonneg (add_nonneg (mul_self_nonneg y) hy) (sub_nonneg.mpr h)]

/-- The signed-square encoding is strictly monotone, hence order-faithful. -/
theorem signedSq_strictMono : StrictMono signedSq := by
  intro x y h
  unfold signedSq
  rcases abs_cases x with ⟨hx, hx0⟩ | ⟨hx, hx0⟩ <;>
    rcases abs_cases y with ⟨hy, hy0⟩ | ⟨hy, hy0⟩ <;>
      rw [hx, hy] <;> nlinarith

/-- Order-faithfulness of the encoding: comparisons of encoded similarity
values agree with comparisons of the similarity values themselves. -/
theorem signedSq_le_signedSq (x y : ℚ) : signedSq x ≤ signedSq y ↔ x ≤ y :=
  signedSq_strictMono.le_iff_le

/-- Why `signedSq (dot e q) / (normSq e * normSq q)` encodes the cosine: over
the reals, the signed square of `d / √p` is exactly `d * |d| / p`. -/
theorem signedSq_div_encodes_cosine (d p : ℝ) (hp : 0 < p) :
    (d / Real.sqrt p) * |d / Real.sqrt p| = d * |d| / p := by
  rw [abs_div, abs_of_nonneg (Real.sqrt_nonneg p), div_mul_div_comm,
    Real.mul_self_sqrt hp.le]

/-- A defined (non-`NaN`) similarity score is at most the encoded `1`. -/
theorem simScoreKey_le_one (e q : List ℚ) (he : normSq e ≠ 0) (hq : normSq q ≠ 0) :
    simScoreKey e q ≤ ((1 : ℚ) : WithTop ℚ) := by
  have hpos : 0 < normSq e * normSq q :=
    lt_of_le_of_ne (mul_nonneg (normSq_nonneg e) (normSq_nonneg q))
      (fun h => (mul_ne_zero he hq) h.symm)
  rw [simScoreKey]
  simp only [hpos.ne', if_false, ite_false, WithTop.coe_le_coe]
  rw [div_le_one hpos]
  calc signedSq (dot e q) ≤ dot e q ^ 2 := by
        unfold signedSq
        nlinarith [le_abs_self (dot e q), abs_nonneg (dot e q), sq_abs (dot e q)]
    _ ≤ normSq e * normSq q := dot_sq_le_normSq_mul e q

/-- A defined similarity score is at least the encoded `-1`. -/
theorem neg_one_le_simScoreKey (e q : List ℚ) (he : normSq e ≠ 0) (hq : normSq q ≠ 0) :
    ((-1 : ℚ) : WithTop ℚ) ≤ simScoreKey e q := by
  have hpos : 0 < normSq e * normSq q :=
    lt_of_le_of_ne (mul_nonneg (normSq_nonneg e) (normSq_nonneg q))
      (fun h => (mul_ne_zero he hq) h.symm)
  rw [simScoreKey]
  simp only [hpos.ne', if_false, ite_false, WithTop.coe_le_coe]
  rw [le_div_iff hpos]
  have h2 : dot e q ^ 2 ≤ normSq e * normSq q := dot_sq_le_normSq_mul e q
  unfold signedSq
  nlinarith [neg_abs_le (dot e q), abs_nonneg (dot e q), sq_abs (dot e q)]

theorem length_unitVecA : unitVecA.length = 768 := by
  rw [unitVecA, List.length_cons, List.length_replicate]

theorem length_unitVecB : unitVecB.length = 768 := by
  rw [unitVecB, List.length_cons, List.length_cons, List.length_replicate]

theorem length_negUnitVecA : negUnitVecA.length = 768 := by
  rw [negUnitVecA, List.length_cons, List.length_replicate]

theorem normSq_unitVecA : normSq unitVecA = 1 := by
  rw [normSq, unitVecA, dot_cons_cons, dot_replicate_zero_left]; norm_num

theorem normSq_unitVecB : normSq unitVecB = 1 := by
  rw [normSq, unitVecB, dot_cons_cons, dot_cons_cons, dot_replicate_zero_left]
  norm_num

theorem normSq_negUnitVecA : normSq negUnitVecA = 1 := by
  rw [normSq, negUnitVecA, dot_cons_cons, dot_replicate_zero_left]; norm_num

theorem dot_unitVecA_unitVecB : dot unitVecA unitVecB = 0 := by
  rw [unitVecA, unitVecB, dot_cons_cons, dot_replicate_zero_left]; norm_num

theorem dot_unitVecA_negUnitVecA : dot unitVecA negUnitVecA = -1 := by
  rw [unitVecA, negUnitVecA, dot_cons_cons, dot_replicate_zero_left]; norm_num

theorem simScoreKey_AB : simScoreKey unitVecA unitVecB = ((0 : ℚ) : WithTop ℚ) := by
  rw [simScoreKey]
  simp [normSq_unitVecA, normSq_unitVecB, dot_unitVecA_unitVecB, signedSq]

theorem simScoreKey_AA : simScoreKey unitVecA unitVecA = ((1 : ℚ) : WithTop ℚ) := by
  rw [simScoreKey]
  simp [normSq_unitVecA, signedSq]
  norm_num [show dot unitVecA unitVecA = 1 from normSq_unitVecA ▸ rfl]

theorem simScoreKey_AnegA : simScoreKey unitVecA negUnitVecA = ((-1 : ℚ) : WithTop ℚ) := by
  rw [simScoreKey]
  simp [normSq_unitVecA, normSq_negUnitVecA, dot_unitVecA_negUnitVecA, signedSq]

theorem simGE_eq_decide (e q : List ℚ) (t k : ℚ)
    (h : simScoreKey e q = (k : WithTop ℚ)) :
    simGE e q t = decide (signedSq t ≤ k) := by
  rw [simGE, h, decide_eq_decide]
  exact WithTop.coe_le_coe

theorem simGE_AB_default : simGE unitVecA unitVecB (7/10) = false := by
  rw [simGE_eq_decide unitVecA unitVecB (7/10) 0 simScoreKey_AB]
  norm_num [signedSq]

theorem simGE_AB_zero : simGE unitVecA unitVecB 0 = true := by
  rw [simGE_eq_decide unitVecA unitVecB 0 0 simScoreKey_AB]
  norm_num [signedSq]

theorem simGE_AnegA_negOne : simGE unitVecA negUnitVecA (-1) = true := by
  rw [simGE_eq_decide unitVecA negUnitVecA (-1) (-1) simScoreKey_AnegA]
  norm_num [signedSq]

theorem simGE_AB_elevenTenths : simGE unitVecA unitVecB (11/10) = false := by
  rw [simGE_eq_decide unitVecA unitVecB (11/10) 0 simScoreKey_AB]
  norm_num [signedSq]

theorem embTable_setEmbTable_same (db : DB) (p : EmbeddingProviderType)
    (l : List EmbeddingRow) : embTable (setEmbTable db p l) p = l := by
  cases p <;> rfl

theorem embTable_setEmbTable_other (db : DB) (p p' : EmbeddingProviderType)
    (l : List EmbeddingRow) (h : p ≠ p') :
    embTable (setEmbTable db p l) p' = embTable db p' := by
  cases p <;> cases p' <;> first | rfl | exact absurd rfl h

theorem memories_setEmbTable (db : DB) (p : EmbeddingProviderType)
    (l : List EmbeddingRow) : (setEmbTable db p l).memories = db.memories := by
  cases p <;> rfl

theorem embTable_memories_update (db : DB) (ms : List MemoryRow) (n : Nat)
    (p : EmbeddingProviderType) :
    embTable { db with memories := ms, nextId := n } p = embTable db p := by
  cases p <;> rfl

theorem mem_joinRows (db : DB) (p : EmbeddingProviderType) (m : MemoryRow)
    (e : EmbeddingRow) :
    (m, e) ∈ joinRows db p ↔
      m ∈ db.memories ∧ e ∈ embTable db p ∧ e.memory_id = m.id := by
  simp only [joinRows, List.mem_flatMap, List.mem_map, List.mem_filter]
  constructor
  · rintro ⟨m', hm', e', ⟨he', hid⟩, heq⟩
    obtain ⟨h1, h2⟩ := Prod.mk.injEq .. ▸ heq
    subst h1; subst h2
    exact ⟨hm', he', by simpa using hid⟩
  · rintro ⟨hm, he, hid⟩
    exact ⟨m, hm, e, ⟨he, by simpa using hid⟩, rfl⟩

theorem searchMemories_some_elim (db : DB) (input : SearchMemoryInput)
    (qEmb : List ℚ) (p : EmbeddingProviderType) (rs : List SearchResult)
    (r : SearchResult) (hrun : searchMemories db input qEmb p = some rs)
    (hr : r ∈ rs) :
    ∃ m e, m ∈ db.memories ∧ e ∈ embTable db (input.embeddingProvider.getD p) ∧
      e.memory_id = m.id ∧
      r.similarityScore = simScoreKey e.embedding qEmb ∧
      simGE e.embedding qEmb (jsOrQ input.similarityThreshold (7/10)) = true := by
  rw [searchMemories, runSearchQuery] at hrun
  split at hrun
  case isFalse => exact absurd hrun (by simp)
  case isTrue hcond =>
    injection hrun with hrs
    rw [← hrs] at hr
    rw [List.mem_map] at hr
    obtain ⟨sr, hsr, hfr⟩ := hr
    have hsorted : sr ∈ List.insertionSort scoredBefore
        (List.filter (searchRowKeep (buildSearchQuery input p) qEmb)
          ((joinRows db (buildSearchQuery input p).provider).map
            (fun me => ScoredRow.mk me.1 me.2 (simScoreKey me.2.embedding qEmb)))) :=
      List.mem_of_mem_take hsr
    rw [List.mem_insertionSort, List.mem_filter] at hsorted
    obtain ⟨hmem, hkeep⟩ := hsorted
    rw [List.mem_map] at hmem
    obtain ⟨me, hme, hmk⟩ := hmem
    rw [mem_joinRows] at hme
    obtain ⟨hm, he, hid⟩ := hme
    refine ⟨me.1, me.2, hm, ?_, hid, ?_, ?_⟩
    · exact he
    · rw [← hfr, ← hmk]
    · rw [searchRowKeep] at hkeep
      rw [← hmk] at hkeep
      simp only [Bool.and_eq_true] at hkeep
      exact hkeep.1.1

theorem searchMemories_some_pairwise (db : DB) (input : SearchMemoryInput)
    (qEmb : List ℚ) (p : EmbeddingProviderType) (rs : List SearchResult)
    (hrun : searchMemories db input qEmb p = some rs) :
    rs.Pairwise (fun a b => b.similarityScore ≤ a.similarityScore) := by
  rw [searchMemories, runSearchQuery] at hrun
  split at hrun
  case isFalse => exact absurd hrun (by simp)
  case isTrue hcond =>
    injection hrun with hrs
    rw [← hrs]
    rw [List.pairwise_map]
    have hsorted := List.sorted_insertionSort scoredBefore
      (List.filter (searchRowKeep (buildSearchQuery input p) qEmb)
        ((joinRows db (buildSearchQuery input p).provider).map
          (fun me => ScoredRow.mk me.1 me.2 (simScoreKey me.2.embedding qEmb))))
    have htake := hsorted.sublist
      (List.take_sublist ((buildSearchQuery input p).limit.toNat) _)
    exact htake.imp (fun hxy => by
      rcases hxy with h | ⟨h, _⟩
      · exact le_of_lt h
      · exact le_of_eq h.symm)

theorem simGE_gt_one_false (e q : List ℚ) (t : ℚ) (ht : 1 < t)
    (he : normSq e ≠ 0) (hq : normSq q ≠ 0) : simGE e q t = false := by
  have h1 := simScoreKey_le_one e q he hq
  rw [simGE]
  rw [decide_eq_false_iff_not]
  intro hle
  have h2 : ((signedSq t : ℚ) : WithTop ℚ) ≤ ((1 : ℚ) : WithTop ℚ) := le_trans hle h1
  rw [WithTop.coe_le_coe] at h2
  have h3 : signedSq 1 < signedSq t := signedSq_strictMono ht
  have h4 : signedSq 1 = 1 := by norm_num [signedSq]
  rw [h4] at h3
  exact absurd h2 (not_le.mpr h3)

/-- C1: `storeMemory` performs its two inserts (one `memories` row, then one
row in the provider table named after the given provider identity) inside a
single atomic transaction: starting outside a transaction, if either insert
fails the session ends with the committed state unchanged (no orphan
`memories` row), and on success it returns the materialized memory carrying
exactly the embedding, model and provider it was given, with both rows
committed and every new memory row matched by an embedding row of that
provider. -/
theorem storeMemory_atomic (s : Session) (input : CreateMemoryInput)
    (emb : List ℚ) (mdl : String) (p : EmbeddingProviderType) (now : ℤ)
    (s' : Session) (res : Option MemoryWithEmbedding)
    (hTxn : s.txn = none)
    (hRun : storeMemory s input emb mdl p now = (s', res)) :
    (res = none → s'.committed = s.committed ∧ s'.txn = none) ∧
    (∀ r, res = some r →
      r.embedding = emb ∧ r.embeddingModel = mdl ∧ r.embeddingProvider = p ∧
      s'.txn = none ∧
      (∃ m ∈ s'.committed.memories, m.id = r.id) ∧
      (∃ e ∈ embTable s'.committed p,
        e.memory_id = r.id ∧ e.embedding = emb ∧ e.model = mdl) ∧
      (∀ m ∈ s'.committed.memories,
        m ∈ s.committed.memories ∨
          ∃ e ∈ embTable s'.committed p, e.memory_id = m.id)) := by
  obtain ⟨db0, txn0⟩ := s
  simp only at hTxn
  subst hTxn
  rw [storeMemory] at hRun
  simp only [Session.beginTxn, Session.active, Session.setActive,
    Session.rollbackTxn, Session.commitTxn, Option.getD_some] at hRun
  cases hIns : insertMemoryRow db0 input.content (jsTruthyStr input.context)
      (input.tags.getD []) (jsOrZ input.importanceScore 1) now with
  | none =>
    rw [hIns] at hRun
    injection hRun with h1 h2
    subst h1; subst h2
    exact ⟨fun _ => ⟨rfl, rfl⟩, fun r hr => absurd hr (by simp)⟩
  | some pair =>
    obtain ⟨db1, row⟩ := pair
    rw [hIns] at hRun
    simp only at hRun
    cases hIns2 : insertEmbeddingRow db1 p row.id emb mdl now with
    | none =>
      rw [hIns2] at hRun
      injection hRun with h1 h2
      subst h1; subst h2
      exact ⟨fun _ => ⟨rfl, rfl⟩, fun r hr => absurd hr (by simp)⟩
    | some db2 =>
      rw [hIns2] at hRun
      injection hRun with h1 h2
      subst h1; subst h2
      refine ⟨fun h => absurd h (by simp), fun r hr => ?_⟩
      injection hr with hr
      subst hr
      rw [insertMemoryRow] at hIns
      split at hIns
      case isFalse => exact absurd hIns (by simp)
      case isTrue hImp =>
        injection hIns with hIns
        injection hIns with hdb1 hrow
        rw [insertEmbeddingRow] at hIns2
        split at hIns2
        case isFalse => exact absurd hIns2 (by simp)
        case isTrue hDim =>
          injection hIns2 with hdb2
          subst hdb2
          subst hdb1
          subst hrow
          refine ⟨rfl, rfl, rfl, rfl, ?_, ?_, ?_⟩
          · rw [memories_setEmbTable]
            exact ⟨_, List.mem_append_right _ (List.mem_singleton_self _), rfl⟩
          · rw [embTable_setEmbTable_same]
            exact ⟨_, List.mem_append_right _ (List.mem_singleton_self _),
              rfl, rfl, rfl⟩
          · intro m hm
            rw [memories_setEmbTable] at hm
            have hm2 : m ∈ db0.memories ++
                [({ id := db0.nextId, content := input.content,
                    context := jsTruthyStr input.context,
                    tags := input.tags.getD [], created_at := now,
                    updated_at := now,
                    importance_score := jsOrZ input.importanceScore 1 } :
                  MemoryRow)] := hm
            rcases List.mem_append.mp hm2 with hmold | hmnew
            · exact Or.inl hmold
            · have hmEq := List.mem_singleton.mp hmnew
              refine Or.inr ⟨{ memory_id := db0.nextId, embedding := emb,
                               model := mdl, created_at := now }, ?_, ?_⟩
              · rw [embTable_setEmbTable_same]
                exact List.mem_append_right _ (List.mem_singleton_self _)
              · rw [hmEq]

theorem simGE_AA_default : simGE unitVecA unitVecA (7/10) = true := by
  rw [simGE_eq_decide unitVecA unitVecA (7/10) 1 simScoreKey_AA]
  rw [signedSq, abs_of_nonneg (by norm_num : (0:ℚ) ≤ 7/10)]
  norm_num

/-- C2 (amended): with every similarity score defined (no zero-norm vector),
`searchMemories` with `similarityThreshold = 1.1` returns the empty list; an
explicitly supplied `similarityThreshold = 0.0` is falsy in JS and is
replaced by the default `0.7` (`input.similarityThreshold || 0.7`), so it
behaves exactly like an unspecified threshold instead of disabling the
similarity filter. -/
theorem searchMemories_threshold_behavior :
    (∀ (db : DB) (input : SearchMemoryInput) (qEmb : List ℚ)
        (p : EmbeddingProviderType) (rs : List SearchResult),
      normSq qEmb ≠ 0 →
      (∀ e ∈ embTable db (input.embeddingProvider.getD p), normSq e.embedding ≠ 0) →
      input.similarityThreshold = some (11/10) →
      searchMemories db input qEmb p = some rs → rs = []) ∧
    (∀ (db : DB) (input : SearchMemoryInput) (qEmb : List ℚ)
        (p : EmbeddingProviderType),
      searchMemories db { input with similarityThreshold := some 0 } qEmb p =
        searchMemories db { input with similarityThreshold := none } qEmb p) := by
  constructor
  · intro db input qEmb p rs hq he ht hrun
    by_contra hne
    obtain ⟨r, hr⟩ := List.exists_mem_of_ne_nil rs hne
    obtain ⟨m, e, _, heTab, _, _, hGE⟩ :=
      searchMemories_some_elim db input qEmb p rs r hrun hr
    have hthr : jsOrQ input.similarityThreshold (7/10) = 11/10 := by
      rw [ht]; norm_num [jsOrQ]
    rw [hthr] at hGE
    rw [simGE_gt_one_false e.embedding qEmb (11/10) (by norm_num)
      (he e heTab) hq] at hGE
    exact absurd hGE (by simp)
  · intro db input qEmb p
    rw [searchMemories, searchMemories]
    have hq : buildSearchQuery { input with similarityThreshold := some 0 } p =
        buildSearchQuery { input with similarityThreshold := none } p := by
      simp [buildSearchQuery, jsOrQ]
    rw [hq]

/-- C2 witness: a populated Ollama table on which both effective behaviors
are exhibited concretely. -/
theorem searchMemories_threshold_behavior_witness :
    (([] : List SearchResult) = []) ∧
    searchMemories exampleDB { zeroThresholdInput with similarityThreshold := some 0 }
        unitVecB .ollama =
      searchMemories exampleDB { zeroThresholdInput with similarityThreshold := none }
        unitVecB .ollama := by
  constructor
  · refine searchMemories_threshold_behavior.1 exampleDB
      { zeroThresholdInput with similarityThreshold := some (11/10) }
      unitVecB .ollama [] ?_ ?_ rfl ?_
    · rw [normSq_unitVecB]; norm_num
    · intro e he
      simp only [Option.getD, zeroThresholdInput, embTable, exampleDB,
        List.mem_singleton] at he
      rw [he]
      show normSq exampleEmbeddingRow.embedding ≠ 0
      show normSq unitVecA ≠ 0
      rw [normSq_unitVecA]; norm_num
    · norm_num [searchMemories, runSearchQuery, buildSearchQuery,
        zeroThresholdInput, exampleDB, embTable, joinRows, exampleMemoryRow,
        exampleEmbeddingRow, searchRowKeep, simGE_AB_elevenTenths,
        length_unitVecA, length_unitVecB, jsOrQ, jsOrZ, jsTruthyStr,
        List.filter_cons]
  · exact searchMemories_threshold_behavior.2 exampleDB zeroThresholdInput
      unitVecB .ollama

/-- C2 counterexample: the Ollama table is populated (one row, orthogonal to
the query, similarity score exactly 0), yet `searchMemories` with an
explicitly supplied `similarityThreshold = 0.0` returns the empty list —
the claim predicts all rows of the table (up to the limit 10). -/
theorem searchMemories_zero_threshold_counterexample :
    exampleDB.ollamaEmbeddings.length = 1 ∧
    searchMemories exampleDB zeroThresholdInput unitVecB .ollama = some [] := by
  constructor
  · rfl
  · norm_num [searchMemories, runSearchQuery, buildSearchQuery,
      zeroThresholdInput, exampleDB, embTable, joinRows, exampleMemoryRow,
      exampleEmbeddingRow, searchRowKeep, simGE_AB_default, length_unitVecA,
      length_unitVecB, jsOrQ, jsOrZ, jsTruthyStr, List.filter_cons]

/-- C3 counterexample: at `similarityThreshold = 0.0` the engine differs from
the claim's reading (threshold defaulted only when unspecified): the engine
filters at 0.7 and drops the similarity-0 row the claim keeps. -/
theorem searchMemories_claim_counterexample :
    searchMemories exampleDB zeroThresholdInput unitVecB .ollama ≠
      searchMemoriesClaimed exampleDB zeroThresholdInput unitVecB .ollama := by
  have h1 : searchMemories exampleDB zeroThresholdInput unitVecB .ollama =
      some [] := by
    norm_num [searchMemories, runSearchQuery, buildSearchQuery,
      zeroThresholdInput, exampleDB, embTable, joinRows, exampleMemoryRow,
      exampleEmbeddingRow, searchRowKeep, simGE_AB_default, length_unitVecA,
      length_unitVecB, jsOrQ, jsOrZ, jsTruthyStr, List.filter_cons]
  have h2 : searchMemoriesClaimed exampleDB zeroThresholdInput unitVecB .ollama =
      some [SearchResult.mk
        (rowToMemoryWithEmbedding exampleMemoryRow exampleEmbeddingRow .ollama)
        ((0 : ℚ) : WithTop ℚ)] := by
    norm_num [searchMemoriesClaimed, zeroThresholdInput, exampleDB, embTable,
      joinRows, exampleMemoryRow, exampleEmbeddingRow, simGE_AB_zero,
      simScoreKey_AB, length_unitVecA, length_unitVecB, List.filter_cons]
  rw [h1, h2]
  simp

/-- C3 (amended): `searchMemories` is exactly the claim's
filter/sort/truncate pipeline once every optional parameter is resolved by
JS truthiness — threshold `0.7` when unspecified or `0`, limit `10` when
unspecified or `0`, model filter only for a non-empty model string, tag
filter only for a non-empty tag array; provider resolution, ordering by
similarity then importance, and truncation are as claimed. -/
theorem searchMemories_eq_spec (db : DB) (input : SearchMemoryInput)
    (qEmb : List ℚ) (p : EmbeddingProviderType) :
    searchMemories db input qEmb p = searchMemoriesSpec db input qEmb p := by
  have hfilters : ∀ (l : List ScoredRow),
      l.filter (searchRowKeep (buildSearchQuery input p) qEmb) =
        ((l.filter (fun r =>
            simGE r.emb.embedding qEmb (jsOrQ input.similarityThreshold (7/10)))).filter
          (fun r =>
            match jsTruthyStr input.embeddingModel with
            | some mdl => r.emb.model = mdl
            | none => true)).filter
          (fun r =>
            match input.tags with
            | some ts => if 0 < ts.length then tagOverlap r.mem.tags ts else true
            | none => true) := by
    intro l
    rw [List.filter_filter, List.filter_filter]
    apply List.filter_congr
    intro r _
    rw [searchRowKeep]
    simp only [buildSearchQuery]
    rcases input.tags with _ | ts
    · simp [Bool.and_comm]
    · by_cases hl : 0 < ts.length <;>
        simp [hl, Bool.and_comm, Bool.and_left_comm, Bool.and_assoc]
  unfold searchMemories runSearchQuery searchMemoriesSpec
  dsimp only []
  rw [hfilters]
  dsimp only [buildSearchQuery]

/-- C4 counterexample: the boundary validator accepts a negative
`similarityThreshold`, under which `searchMemories` returns a result whose
similarity score is the encoding of `-1`, strictly below `0` — outside the
claimed `[0, 1]`. -/
theorem searchMemories_score_range_counterexample :
    isValidSearchMemoriesArgs negThresholdInput = true ∧
    (searchMemories exampleDB negThresholdInput negUnitVecA .ollama).map
        (fun l => l.map (fun r => r.similarityScore)) =
      some [((-1 : ℚ) : WithTop ℚ)] ∧
    ¬ ((0 : ℚ) : WithTop ℚ) ≤ ((-1 : ℚ) : WithTop ℚ) := by
  refine ⟨rfl, ?_, ?_⟩
  · norm_num [searchMemories, runSearchQuery, buildSearchQuery,
      negThresholdInput, exampleDB, embTable, joinRows, exampleMemoryRow,
      exampleEmbeddingRow, searchRowKeep, simGE_AnegA_negOne, simScoreKey_AnegA,
      length_unitVecA, length_negUnitVecA, jsOrQ, jsOrZ, jsTruthyStr,
      List.filter_cons, rowToMemoryWithEmbedding]
  · rw [WithTop.coe_le_coe]
    norm_num

/-- C4 (amended): for validator-accepted inputs, on states whose similarity
scores are all defined (no zero-norm vector), every result's score lies in
the encoded `[-1, 1]` — not `[0, 1]`, since the validator does not bound the
threshold — and scores are non-increasing across the returned sequence. -/
theorem searchMemories_score_bounds (db : DB) (input : SearchMemoryInput)
    (qEmb : List ℚ) (p : EmbeddingProviderType) (rs : List SearchResult)
    (hvalid : isValidSearchMemoriesArgs input = true)
    (hq : normSq qEmb ≠ 0)
    (he : ∀ e ∈ embTable db (input.embeddingProvider.getD p),
      normSq e.embedding ≠ 0)
    (hrun : searchMemories db input qEmb p = some rs) :
    (∀ r ∈ rs, ((-1 : ℚ) : WithTop ℚ) ≤ r.similarityScore ∧
      r.similarityScore ≤ ((1 : ℚ) : WithTop ℚ)) ∧
    rs.Pairwise (fun a b => b.similarityScore ≤ a.similarityScore) := by
  constructor
  · intro r hr
    obtain ⟨m, e, _, heTab, _, hscore, _⟩ :=
      searchMemories_some_elim db input qEmb p rs r hrun hr
    rw [hscore]
    exact ⟨neg_one_le_simScoreKey _ _ (he e heTab) hq,
      simScoreKey_le_one _ _ (he e heTab) hq⟩
  · exact searchMemories_some_pairwise db input qEmb p rs hrun

/-- C4 witness: a concrete default-threshold search returning one result of
score exactly the encoded `1`, within the claimed bounds. -/
theorem searchMemories_score_bounds_witness :
    ((-1 : ℚ) : WithTop ℚ) ≤ (SearchResult.mk
        (rowToMemoryWithEmbedding exampleMemoryRow exampleEmbeddingRow .ollama)
        ((1 : ℚ) : WithTop ℚ)).similarityScore ∧
    (SearchResult.mk
        (rowToMemoryWithEmbedding exampleMemoryRow exampleEmbeddingRow .ollama)
        ((1 : ℚ) : WithTop ℚ)).similarityScore ≤ ((1 : ℚ) : WithTop ℚ) := by
  refine (searchMemories_score_bounds exampleDB
    { zeroThresholdInput with similarityThreshold := none } unitVecA .ollama
    _ rfl ?_ ?_ ?_).1 _ (List.mem_singleton_self _)
  · rw [normSq_unitVecA]; norm_num
  · intro e he
    simp only [Option.getD, zeroThresholdInput, embTable, exampleDB,
      List.mem_singleton] at he
    rw [he]
    show normSq unitVecA ≠ 0
    rw [normSq_unitVecA]; norm_num
  · norm_num [searchMemories, runSearchQuery, buildSearchQuery,
      zeroThresholdInput, exampleDB, embTable, joinRows, exampleMemoryRow,
      exampleEmbeddingRow, searchRowKeep, simGE_AA_default, simScoreKey_AA,
      length_unitVecA, jsOrQ, jsOrZ, jsTruthyStr, List.filter_cons,
      rowToMemoryWithEmbedding]

/-- C5: with `limit` and `offset` both omitted, `listMemories` succeeds and
returns the entire filtered set — a permutation of the filter of the
`memories` table, with no implicit page-size cap — ordered by creation time
descending; and the assembled query carries a `LIMIT`/`OFFSET` clause only
when the corresponding field was supplied. -/
theorem listMemories_unbounded :
    (∀ (db : DB) (input : ListMemoriesInput) (l : List Memory),
      input.limit = none → input.offset = none →
      listMemories db input = some l →
      l.Perm ((db.memories.filter (listRowKeep db (buildListQuery input))).map
        rowToMemory) ∧
      l.Pairwise (fun x y => y.createdAt ≤ x.createdAt)) ∧
    (∀ (db : DB) (input : ListMemoriesInput),
      input.limit = none → input.offset = none →
      listMemories db input ≠ none) ∧
    (∀ input : ListMemoriesInput,
      ((buildListQuery input).limit ≠ none → input.limit ≠ none) ∧
      ((buildListQuery input).offset ≠ none → input.offset ≠ none)) := by
  have hbuild : ∀ (input : ListMemoriesInput), input.limit = none →
      input.offset = none → ∀ db,
      listMemories db input = some
        ((List.insertionSort createdBefore
          (db.memories.filter (listRowKeep db (buildListQuery input)))).map
            rowToMemory) := by
    intro input hlim hoff db
    rw [listMemories, runListQuery]
    have h1 : (buildListQuery input).limit = none := by
      rw [buildListQuery]; rw [hlim]; rfl
    have h2 : (buildListQuery input).offset = none := by
      rw [buildListQuery]; rw [hoff]; rfl
    rw [h1, h2]
    rfl
  refine ⟨?_, ?_, ?_⟩
  · intro db input l hlim hoff hrun
    rw [hbuild input hlim hoff db] at hrun
    injection hrun with hrun
    rw [← hrun]
    constructor
    · exact (List.perm_insertionSort createdBefore _).map rowToMemory
    · rw [List.pairwise_map]
      exact (List.sorted_insertionSort createdBefore _).imp (fun h => h)
  · intro db input hlim hoff
    rw [hbuild input hlim hoff db]
    simp
  · intro input
    constructor
    · intro h hnone
      rw [buildListQuery] at h
      rw [hnone] at h
      exact h rfl
    · intro h hnone
      rw [buildListQuery] at h
      rw [hnone] at h
      exact h rfl

/-- C5 witness: the all-defaults listing of the one-row example state. -/
theorem listMemories_unbounded_witness :
    ([rowToMemory exampleMemoryRow].Perm
      ((exampleDB.memories.filter (listRowKeep exampleDB
        (buildListQuery { emptyTagsListInput with tags := none }))).map
          rowToMemory)) ∧
    ([rowToMemory exampleMemoryRow].Pairwise
      (fun x y => y.createdAt ≤ x.createdAt)) :=
  listMemories_unbounded.1 exampleDB { emptyTagsListInput with tags := none }
    [rowToMemory exampleMemoryRow] rfl rfl (by decide)

/-- C8 counterexample: supplying an empty tag array filters nothing (the
`input.tags.length > 0` guard skips the clause), although the claim's
overlap reading would exclude every memory. -/
theorem listMemories_filters_counterexample :
    listMemories exampleDB emptyTagsListInput = some [rowToMemory exampleMemoryRow] ∧
    exampleDB.memories.filter (listClaimKeep exampleDB emptyTagsListInput) = [] := by
  constructor
  · decide
  · decide

/-- C8 (amended): with `limit`/`offset` omitted and the `CHECK
(importance_score BETWEEN 1 AND 5)` invariant, `listMemories` returns
exactly the memories satisfying all supplied filters conjointly — tag
overlap when a non-empty tag array is supplied (an empty one is skipped),
minimum importance (`>=`), inclusive date bounds on both ends, and the
provider existence check — without duplicating any row (a permutation of
the filtered table). -/
theorem listMemories_filters (db : DB) (input : ListMemoriesInput)
    (l : List Memory)
    (himp : ∀ m ∈ db.memories, 1 ≤ m.importance_score)
    (hlim : input.limit = none) (hoff : input.offset = none)
    (hrun : listMemories db input = some l) :
    l.Perm ((db.memories.filter (listClaimKeepAmended db input)).map
      rowToMemory) := by
  have hpred : db.memories.filter (listRowKeep db (buildListQuery input)) =
      db.memories.filter (listClaimKeepAmended db input) := by
    apply List.filter_congr
    intro m hm
    rw [listRowKeep, listClaimKeepAmended]
    simp only [buildListQuery]
    have himp2 : (0 : ℤ) ≤ m.importance_score := le_trans (by norm_num) (himp m hm)
    have htags : (match (match input.tags with
          | some ts => if 0 < ts.length then some ts else none
          | none => none) with
        | some ts => tagOverlap m.tags ts
        | none => true) = (match input.tags with
        | some ts => if 0 < ts.length then tagOverlap m.tags ts else true
        | none => true) := by
      rcases input.tags with _ | ts
      · rfl
      · by_cases hl : 0 < ts.length <;> simp [hl]
    have hmin : (match jsTruthyZ input.minImportance with
        | some b => decide (b ≤ m.importance_score)
        | none => true) = (match input.minImportance with
        | some b => decide (b ≤ m.importance_score)
        | none => true) := by
      rcases input.minImportance with _ | b
      · rfl
      · by_cases hb : b = 0
        · subst hb
          simp [jsTruthyZ, himp2]
        · simp [jsTruthyZ, hb]
    rw [htags, hmin]
  have h1 : (buildListQuery input).limit = none := by
    rw [buildListQuery]; rw [hlim]; rfl
  have h2 : (buildListQuery input).offset = none := by
    rw [buildListQuery]; rw [hoff]; rfl
  have hlist : listMemories db input = some
      ((List.insertionSort createdBefore
        (db.memories.filter (listRowKeep db (buildListQuery input)))).map
          rowToMemory) := by
    rw [listMemories, runListQuery, h1, h2]
    rfl
  rw [hlist] at hrun
  injection hrun with hrun
  rw [← hrun, ← hpred]
  exact (List.perm_insertionSort createdBefore _).map rowToMemory

/-- C8 witness: the same listing applied with no tag filter. -/
theorem listMemories_filters_witness :
    ([rowToMemory exampleMemoryRow].Perm
      ((exampleDB.memories.filter (listClaimKeepAmended exampleDB
        { emptyTagsListInput with tags := none })).map rowToMemory)) :=
  listMemories_filters exampleDB { emptyTagsListInput with tags := none }
    [rowToMemory exampleMemoryRow] (by decide) rfl rfl (by decide)

/-- Helper for C7: the join against a provider table with no row for the
memory id produces no result. -/
theorem getMemoryWithEmbeddingById_eq_none (db : DB) (id : Nat)
    (p : EmbeddingProviderType)
    (h : ∀ e ∈ embTable db p, e.memory_id ≠ id) :
    getMemoryWithEmbeddingById db id p = none := by
  rw [getMemoryWithEmbeddingById]
  have hfil : (joinRows db p).filter (fun me => me.1.id = id) = [] := by
    rw [List.filter_eq_nil_iff]
    rintro ⟨m, e⟩ hme
    obtain ⟨_, he, hid⟩ := (mem_joinRows db p m e).mp hme
    intro hEq
    rw [decide_eq_true_eq] at hEq
    exact h e he (hid.trans hEq)
  rw [hfil]
  rfl

/-- C6: `deleteMemory id` returns true iff a `memories` row with that id
existed (and was removed); after a successful delete `getMemoryById` is
not-found and the memory's embedding rows are gone from every provider
table, removed by the cascading foreign-key semantics of the single `DELETE`
statement — the service issues no separate cleanup query. -/
theorem deleteMemory_cascade (db : DB) (id : Nat) :
    ((deleteMemory db id).2 = true ↔ ∃ m ∈ db.memories, m.id = id) ∧
    ((deleteMemory db id).2 = true →
      getMemoryById (deleteMemory db id).1 id = none ∧
      ∀ p, ∀ e ∈ embTable (deleteMemory db id).1 p, e.memory_id ≠ id) := by
  constructor
  · rw [deleteMemory]
    dsimp only
    rw [decide_eq_true_eq, List.length_pos_iff_exists_mem]
    constructor
    · rintro ⟨m, hm⟩
      obtain ⟨hm1, hm2⟩ := List.mem_filter.mp hm
      exact ⟨m, hm1, by simpa using hm2⟩
    · rintro ⟨m, hm1, hm2⟩
      exact ⟨m, List.mem_filter.mpr ⟨hm1, by simpa using hm2⟩⟩
  · intro hdel
    have hex : ∃ m ∈ db.memories, m.id = id := by
      rw [deleteMemory] at hdel
      dsimp only at hdel
      rw [decide_eq_true_eq, List.length_pos_iff_exists_mem] at hdel
      obtain ⟨m, hm⟩ := hdel
      obtain ⟨hm1, hm2⟩ := List.mem_filter.mp hm
      exact ⟨m, hm1, by simpa using hm2⟩
    constructor
    · rw [getMemoryById]
      have hfil : ((deleteMemory db id).1.memories.filter (fun m => m.id = id)) = [] := by
        rw [List.filter_eq_nil_iff]
        intro m hm
        rw [deleteMemory] at hm
        dsimp only at hm
        obtain ⟨_, hm2⟩ := List.mem_filter.mp hm
        simp only [decide_not, Bool.not_eq_true, decide_eq_false_iff_not] at hm2
        simpa using hm2
      rw [hfil]
      rfl
    · intro p e he
      obtain ⟨m0, hm0, hid0⟩ := hex
      have hcontains : ((db.memories.filter (fun m => m.id = id)).map
          (fun m => m.id)).contains id = true := by
        rw [List.contains_eq_any_beq]
        rw [List.any_eq_true]
        refine ⟨m0.id, List.mem_map_of_mem _ (List.mem_filter.mpr
          ⟨hm0, by simpa using hid0⟩), by simpa using hid0.symm⟩
      intro hEq
      have : e ∈ (embTable db p).filter (fun e =>
          ¬ ((db.memories.filter (fun m => m.id = id)).map
            (fun m => m.id)).contains e.memory_id) := by
        rw [deleteMemory] at he
        cases p
        · exact he
        · exact he
      obtain ⟨_, hnc⟩ := List.mem_filter.mp this
      rw [hEq, hcontains] at hnc
      simp at hnc

/-- C6 witness: deleting the one stored memory of the example state. -/
theorem deleteMemory_cascade_witness :
    getMemoryById (deleteMemory exampleDB 1).1 1 = none :=
  ((deleteMemory_cascade exampleDB 1).2
    ((deleteMemory_cascade exampleDB 1).1.mpr
      ⟨exampleMemoryRow, by decide, rfl⟩)).1

theorem otherProvider_ne (p : EmbeddingProviderType) : p ≠ otherProvider p := by
  cases p <;> simp [otherProvider]

/-- C7: `getMemoryWithEmbeddingById` returns not-found (`null`) rather than
an error whenever the provider table has no row for the memory id; in
particular, after a memory is stored under one provider (starting from a
state whose other table and memories contain no row for the fresh id), the
same id queried under the other provider is not-found while `getMemoryById`
still returns the memory. -/
theorem getMemoryWithEmbeddingById_not_found :
    (∀ (db : DB) (id : Nat) (p : EmbeddingProviderType),
      (∀ e ∈ embTable db p, e.memory_id ≠ id) →
      getMemoryWithEmbeddingById db id p = none) ∧
    (∀ (s : Session) (input : CreateMemoryInput) (emb : List ℚ) (mdl : String)
        (p : EmbeddingProviderType) (now : ℤ) (s' : Session)
        (r : MemoryWithEmbedding),
      s.txn = none →
      (∀ e ∈ embTable s.committed (otherProvider p),
        e.memory_id ≠ s.committed.nextId) →
      (∀ m ∈ s.committed.memories, m.id ≠ s.committed.nextId) →
      storeMemory s input emb mdl p now = (s', some r) →
      getMemoryWithEmbeddingById s'.committed r.id (otherProvider p) = none ∧
      getMemoryById s'.committed r.id =
        some { id := r.id, content := r.content, context := r.context,
               tags := r.tags, createdAt := r.createdAt,
               updatedAt := r.updatedAt,
               importanceScore := r.importanceScore }) := by
  constructor
  · exact getMemoryWithEmbeddingById_eq_none
  · intro s input emb mdl p now s' r hTxn hOther hIds hRun
    obtain ⟨db0, txn0⟩ := s
    simp only at hTxn hOther hIds
    subst hTxn
    rw [storeMemory] at hRun
    simp only [Session.beginTxn, Session.active, Session.setActive,
      Session.rollbackTxn, Session.commitTxn, Option.getD_some] at hRun
    cases hIns : insertMemoryRow db0 input.content (jsTruthyStr input.context)
        (input.tags.getD []) (jsOrZ input.importanceScore 1) now with
    | none =>
      rw [hIns] at hRun
      injection hRun with h1 h2
      exact absurd h2.symm (by simp)
    | some pair =>
      obtain ⟨db1, row⟩ := pair
      rw [hIns] at hRun
      simp only at hRun
      cases hIns2 : insertEmbeddingRow db1 p row.id emb mdl now with
      | none =>
        rw [hIns2] at hRun
        injection hRun with h1 h2
        exact absurd h2.symm (by simp)
      | some db2 =>
        rw [hIns2] at hRun
        injection hRun with h1 h2
        subst h1
        injection h2 with h2
        subst h2
        rw [insertMemoryRow] at hIns
        split at hIns
        case isFalse => exact absurd hIns (by simp)
        case isTrue hImp =>
          injection hIns with hIns
          injection hIns with hdb1 hrow
          rw [insertEmbeddingRow] at hIns2
          split at hIns2
          case isFalse => exact absurd hIns2 (by simp)
          case isTrue hDim =>
            injection hIns2 with hdb2
            subst hdb2
            subst hdb1
            subst hrow
            constructor
            · apply getMemoryWithEmbeddingById_eq_none
              intro e he
              rw [embTable_setEmbTable_other _ _ _ _ (otherProvider_ne p),
                embTable_memories_update] at he
              exact hOther e he
            · rw [getMemoryById]
              simp only [memories_setEmbTable]
              have hfil : (db0.memories ++
                  [({ id := db0.nextId, content := input.content,
                      context := jsTruthyStr input.context,
                      tags := input.tags.getD [], created_at := now,
                      updated_at := now,
                      importance_score := jsOrZ input.importanceScore 1 } :
                    MemoryRow)]).filter (fun m => m.id = db0.nextId) =
                  [{ id := db0.nextId, content := input.content,
                     context := jsTruthyStr input.context,
                     tags := input.tags.getD [], created_at := now,
                     updated_at := now,
                     importance_score := jsOrZ input.importanceScore 1 }] := by
                rw [List.filter_append]
                have hleft : db0.memories.filter (fun m => m.id = db0.nextId) = [] := by
                  rw [List.filter_eq_nil_iff]
                  intro m hm
                  simp only [decide_eq_true_eq]
                  exact hIds m hm
                rw [hleft]
                simp
              rw [hfil]
              rfl

/-- C7 witness: the example memory is stored under Ollama only, so the
OpenAI-side lookup is not-found. -/
theorem getMemoryWithEmbeddingById_not_found_witness :
    getMemoryWithEmbeddingById exampleDB 1 .openai = none :=
  getMemoryWithEmbeddingById_not_found.1 exampleDB 1 .openai
    (by intro e he; simp [embTable, exampleDB] at he)

/-- C1 witness: a store whose first insert violates the importance CHECK
constraint leaves the committed state untouched. -/
theorem storeMemory_atomic_witness :
    (Session.mk exampleDB none).committed = (Session.mk exampleDB none).committed ∧
    (Session.mk exampleDB none).txn = none := by
  have h := storeMemory_atomic (Session.mk exampleDB none)
    { content := "c", context := none, tags := none, importanceScore := some 7 }
    unitVecA "m" EmbeddingProviderType.ollama 5 (Session.mk exampleDB none) none
    rfl rfl
  exact h.1 rfl

/-- C9: each provider adapter's batch embedding is semantically equivalent
to calling the single-text embedding once per text in input order: the
Ollama adapter by its sequential per-item loop (aborting at the first
failure exactly as the per-item calls would), the OpenAI adapter by its
native batch call, given the documented endpoint contract that the response
carries one data item per input, in input order. -/
theorem generateEmbeddings_batch_equiv :
    (∀ (svc : String → Option (List ℚ)) (texts : List String),
      OllamaEmbeddingProvider.generateEmbeddings svc texts =
        texts.mapM (OllamaEmbeddingProvider.generateEmbedding svc)) ∧
    (∀ (api : List String → Option (List (List ℚ)))
        (f : String → Option (List ℚ)),
      (∀ ts, api ts = ts.mapM f) →
      ∀ texts, OpenAIEmbeddingProvider.generateEmbeddings api texts =
        texts.mapM (OpenAIEmbeddingProvider.generateEmbedding api)) := by
  constructor
  · intro svc texts
    induction texts with
    | nil => rfl
    | cons t ts ih =>
      rw [OllamaEmbeddingProvider.generateEmbeddings, List.mapM_cons, ih]
      cases h : OllamaEmbeddingProvider.generateEmbedding svc t with
      | none => simp [h]
      | some e =>
        cases h2 : ts.mapM (OllamaEmbeddingProvider.generateEmbedding svc) with
        | none => simp [h, h2]
        | some es => simp [h, h2]
  · intro api f hapi
    have hpt : ∀ t, OpenAIEmbeddingProvider.generateEmbedding api t = f t := by
      intro t
      rw [OpenAIEmbeddingProvider.generateEmbedding, hapi [t]]
      cases h : f t with
      | none =>
        rw [show List.mapM f [t] = none by rw [List.mapM_cons]; simp [h]]
      | some e =>
        rw [show List.mapM f [t] = some [e] by rw [List.mapM_cons]; simp [h]; rfl]
    intro texts
    rw [OpenAIEmbeddingProvider.generateEmbeddings, hapi texts]
    induction texts with
    | nil => rfl
    | cons t ts ih =>
      rw [List.mapM_cons, List.mapM_cons, hpt t, ih]

/-- C9 witness: a concrete consistent endpoint. -/
theorem generateEmbeddings_batch_equiv_witness :
    OpenAIEmbeddingProvider.generateEmbeddings
        (fun ts => ts.mapM (fun _ => some [(0 : ℚ)])) ["a", "b"] =
      ["a", "b"].mapM (OpenAIEmbeddingProvider.generateEmbedding
        (fun ts => ts.mapM (fun _ => some [(0 : ℚ)]))) :=
  generateEmbeddings_batch_equiv.2 (fun ts => ts.mapM (fun _ => some [(0 : ℚ)]))
    (fun _ => some [(0 : ℚ)]) (fun _ => rfl) ["a", "b"]

/-- C10: at the storage engine, supplying `0` for an optional numeric
parameter is indistinguishable from omitting it (JS falsiness): `storeMemory`
with `importanceScore = 0` behaves as if omitted and stores the default
importance `1`; `listMemories` with `limit = 0` or `offset = 0` applies no
`LIMIT`/`OFFSET` clause, and `minImportance = 0` applies no importance
filter. -/
theorem zero_optionals_treated_as_omitted :
    (∀ (s : Session) (input : CreateMemoryInput) (emb : List ℚ) (mdl : String)
        (p : EmbeddingProviderType) (now : ℤ),
      storeMemory s { input with importanceScore := some 0 } emb mdl p now =
        storeMemory s { input with importanceScore := none } emb mdl p now) ∧
    (∀ (s : Session) (input : CreateMemoryInput) (emb : List ℚ) (mdl : String)
        (p : EmbeddingProviderType) (now : ℤ) (s' : Session)
        (r : MemoryWithEmbedding),
      input.importanceScore = some 0 →
      storeMemory s input emb mdl p now = (s', some r) →
      r.importanceScore = 1) ∧
    (∀ (db : DB) (input : ListMemoriesInput),
      listMemories db { input with limit := some 0 } =
        listMemories db { input with limit := none }) ∧
    (∀ (db : DB) (input : ListMemoriesInput),
      listMemories db { input with offset := some 0 } =
        listMemories db { input with offset := none }) ∧
    (∀ (db : DB) (input : ListMemoriesInput),
      listMemories db { input with minImportance := some 0 } =
        listMemories db { input with minImportance := none }) := by
  refine ⟨?_, ?_, ?_, ?_, ?_⟩
  · intro s input emb mdl p now
    rfl
  · intro s input emb mdl p now s' r hImpEq hRun
    rw [storeMemory] at hRun
    simp only [Session.beginTxn, Session.active, Session.setActive,
      Session.rollbackTxn, Session.commitTxn, Option.getD_some] at hRun
    rw [hImpEq] at hRun
    cases hIns : insertMemoryRow s.committed input.content
        (jsTruthyStr input.context) (input.tags.getD [])
        (jsOrZ (some 0) 1) now with
    | none =>
      rw [hIns] at hRun
      injection hRun with _ h2
      exact absurd h2.symm (by simp)
    | some pair =>
      obtain ⟨db1, row⟩ := pair
      rw [hIns] at hRun
      simp only at hRun
      cases hIns2 : insertEmbeddingRow db1 p row.id emb mdl now with
      | none =>
        rw [hIns2] at hRun
        injection hRun with _ h2
        exact absurd h2.symm (by simp)
      | some db2 =>
        rw [hIns2] at hRun
        injection hRun with h1 h2
        injection h2 with h2
        rw [insertMemoryRow] at hIns
        split at hIns
        case isFalse => exact absurd hIns (by simp)
        case isTrue hImp =>
          injection hIns with hIns
          injection hIns with hdb1 hrow
          rw [← h2, ← hrow]
          rfl
  · intro db input
    have h : buildListQuery { input with limit := some 0 } =
        buildListQuery { input with limit := none } := by
      simp [buildListQuery, jsTruthyZ]
    rw [listMemories, listMemories, h]
  · intro db input
    have h : buildListQuery { input with offset := some 0 } =
        buildListQuery { input with offset := none } := by
      simp [buildListQuery, jsTruthyZ]
    rw [listMemories, listMemories, h]
  · intro db input
    have h : buildListQuery { input with minImportance := some 0 } =
        buildListQuery { input with minImportance := none } := by
      simp [buildListQuery, jsTruthyZ]
    rw [listMemories, listMemories, h]

/-- C10 witness: a concrete store with `importanceScore = 0` lands at the
default importance `1`, and a concrete zero `minImportance` filters
nothing. -/
theorem zero_optionals_treated_as_omitted_witness :
    ({ id := 2, content := "c", context := none, tags := [], createdAt := 5,
       updatedAt := 5, importanceScore := 1, embedding := unitVecA,
       embeddingModel := "m",
       embeddingProvider := EmbeddingProviderType.ollama } :
      MemoryWithEmbedding).importanceScore = 1 ∧
    listMemories exampleDB { emptyTagsListInput with minImportance := some 0 } =
      listMemories exampleDB { emptyTagsListInput with minImportance := none } := by
  constructor
  · exact zero_optionals_treated_as_omitted.2.1 (Session.mk exampleDB none)
      { content := "c", context := none, tags := none, importanceScore := some 0 }
      unitVecA "m" EmbeddingProviderType.ollama 5
      (Session.mk
        { memories := [exampleMemoryRow,
            { id := 2, content := "c", context := none, tags := [],
              created_at := 5, updated_at := 5, importance_score := 1 }],
          openaiEmbeddings := [],
          ollamaEmbeddings := [exampleEmbeddingRow,
            { memory_id := 2, embedding := unitVecA, model := "m",
              created_at := 5 }],
          nextId := 3 } none)
      { id := 2, content := "c", context := none, tags := [], createdAt := 5,
        updatedAt := 5, importanceScore := 1, embedding := unitVecA,
        embeddingModel := "m",
        embeddingProvider := EmbeddingProviderType.ollama }
      rfl rfl
  · exact zero_optionals_treated_as_omitted.2.2.2.2 exampleDB emptyTagsListInput
